import Mathlib

/-!
Verification of the Cumbre MCP tool server (`src/app.py`).

Strings are modelled as `List Char` (Python `str` is a sequence of code
points).  The outbound HTTP world is modelled as a function from the query
variant to the outcome of the corresponding call; each tool body is a pure
function of that outcome.  A Python `dict` (insertion-ordered, upsert keeps
the original position of an existing key) is modelled as an association
list.  The uncaught `KeyError` raised by `vacante["id"]` on an item without
an `id` field is modelled by `Except Unit`.
-/

abbrev PyStr := List Char

/-- Whitespace predicate of CPython `str.strip` (Py_UNICODE_ISSPACE). -/
def pyIsSpace (c : Char) : Bool :=
  let n := c.toNat
  (9 ≤ n && n ≤ 13) || (28 ≤ n && n ≤ 31) || n == 32 || n == 133 || n == 160 ||
  n == 0x1680 || (0x2000 ≤ n && n ≤ 0x200A) || n == 0x2028 || n == 0x2029 ||
  n == 0x202F || n == 0x205F || n == 0x3000

/-- Python `s.strip()`: drop leading and trailing whitespace. -/
def pyStrip (s : PyStr) : PyStr :=
  ((s.dropWhile pyIsSpace).reverse.dropWhile pyIsSpace).reverse

/-- The fixed suffix appended by the expander: a single space and the token. -/
def remotoSuffix : PyStr := (" remoto").toList

/-- `generar_consultas` from `src/app.py` lines 16-23: strip the input; if
empty return `[]`; otherwise materialise the set
`{consulta_limpia, consulta_limpia + " remoto"}` as a list (the set
construction collapses the two elements exactly when they are equal). -/
def generar_consultas (consulta_inicial : PyStr) : List PyStr :=
  let consulta_limpia := pyStrip consulta_inicial
  if consulta_limpia = [] then []
  else if consulta_limpia = consulta_limpia ++ remotoSuffix then [consulta_limpia]
  else [consulta_limpia, consulta_limpia ++ remotoSuffix]

/-- One item of the jobs API `vacancies` array.  Only the `id` field is ever
read by the code; `idField` is its value when present (`none` models a dict
without an `id` key), `body` stands for the remaining opaque payload. -/
structure Vacante where
  idField : Option Nat
  body : Nat
deriving DecidableEq, Repr

/-- The JSON body of a successful jobs-API response: `data.get("vacancies", [])`
treats an absent `vacancies` field as the empty list. -/
structure JobsData where
  vacancies : Option (List Vacante)
deriving DecidableEq, Repr

/-- Outcome of one outbound GET in `buscar_empleos`: `fail` is a transport
failure or a non-success status (`raise_for_status`), both caught by the
`except requests.exceptions.RequestException` clause; `ok` carries the parsed
JSON body. -/
inductive ApiResult where
  | fail
  | ok (data : JobsData)
deriving DecidableEq, Repr

/-- Items a call outcome contributes to the merge loop: a failed call
contributes nothing, a successful one its (possibly defaulted) array. -/
def itemsOf (r : ApiResult) : List Vacante :=
  match r with
  | .fail => []
  | .ok data => data.vacancies.getD []

/-- The merge mapping `todas_las_vacantes`: a Python dict keyed by id,
modelled as an insertion-ordered association list. -/
abbrev JobDict := List (Nat × Vacante)

def dictKeys (d : JobDict) : List Nat := d.map Prod.fst

def dictFind (d : JobDict) (k : Nat) : Option Vacante :=
  (d.find? (fun p => p.1 = k)).map Prod.snd

/-- `todas_las_vacantes[k] = v`: replace in place when the key exists
(Python dicts keep the original position), append otherwise. -/
def dictUpsert (d : JobDict) (k : Nat) (v : Vacante) : JobDict :=
  if k ∈ dictKeys d then
    d.map (fun p => if p.1 = k then (k, v) else p)
  else d ++ [(k, v)]

/-- The inner `for vacante in vacancies` loop: look up `vacante["id"]`
(an absent key raises `KeyError`, which no handler catches) and upsert. -/
def insertVacantes (d : JobDict) (vs : List Vacante) : Except Unit JobDict :=
  match vs with
  | [] => .ok d
  | v :: rest =>
    match v.idField with
    | none => .error ()
    | some k => insertVacantes (dictUpsert d k v) rest

/-- The outer `for consulta in consultas_a_realizar` loop of
`buscar_empleos`: a failed call is skipped (`except ... pass`), a successful
one feeds its items to the merge; a `KeyError` aborts the whole function. -/
def procesarConsultas (net : PyStr → ApiResult) (d : JobDict) :
    List PyStr → Except Unit JobDict
  | [] => .ok d
  | c :: cs =>
    match net c with
    | .fail => procesarConsultas net d cs
    | .ok data =>
      match insertVacantes d (data.vacancies.getD []) with
      | .error e => .error e
      | .ok d' => procesarConsultas net d' cs

/-- The dictionary returned by `buscar_empleos`. -/
structure RespEmpleos where
  consultas_realizadas : List PyStr
  vacantes_encontradas : List Vacante
deriving DecidableEq, Repr

/-- `buscar_empleos` from `src/app.py` lines 47-88: expand the query, fan
out one call per variant, merge by id, return the variant list and the
mapping values. -/
def buscar_empleos (net : PyStr → ApiResult) (consulta_inicial : PyStr) :
    Except Unit RespEmpleos :=
  let consultas_a_realizar := generar_consultas consulta_inicial
  match procesarConsultas net [] consultas_a_realizar with
  | .error e => .error e
  | .ok d => .ok ⟨consultas_a_realizar, d.map Prod.snd⟩

/-- All items processed across the variant calls, in processing order. -/
def streamOf (net : PyStr → ApiResult) : List PyStr → List Vacante
  | [] => []
  | c :: cs => itemsOf (net c) ++ streamOf net cs

/-- The last item of `vs` whose id is `k` (the one a last-write-wins merge
keeps). -/
def lastWithId (vs : List Vacante) (k : Nat) : Option Vacante :=
  vs.reverse.find? (fun v => v.idField = some k)

/-- Invariant of the merge mapping: keys are distinct and every stored item
carries its own key as id. -/
def goodDict (d : JobDict) : Prop :=
  (dictKeys d).Nodup ∧ ∀ p ∈ d, p.2.idField = some p.1

/-- A JSON object whose values the code reads as strings, modelled as an
association list (Python dict truthiness: falsy iff empty). -/
abbrev JsonObj := List (PyStr × PyStr)

/-- Python `d.get(k, dflt)` on such an object. -/
def dget (d : JsonObj) (k dflt : PyStr) : PyStr :=
  match d.find? (fun p => p.1 = k) with
  | some p => p.2
  | none => dflt

/-- The JSON body of a successful Serper response: the three fields the code
reads, each possibly absent (`data.get` defaults: `[]` for `organic`, an
empty dict for `answerBox` and `knowledgeGraph`). -/
structure SerperData where
  organic : Option (List JsonObj)
  answerBox : Option JsonObj
  knowledgeGraph : Option JsonObj
deriving DecidableEq, Repr

/-- Outcome of the single outbound POST in `buscar_google`: `fail msg` is a
caught `RequestException` rendered as `msg`, `ok` the parsed JSON body. -/
inductive SerperOutcome where
  | fail (msg : PyStr)
  | ok (data : SerperData)
deriving DecidableEq, Repr

/-- The numbered lines for `organic_results[:5]` built by the summary loop,
`i` the 1-based counter of `enumerate`. -/
def organicLines (i : Nat) (rs : List JsonObj) : PyStr :=
  match rs with
  | [] => []
  | r :: rest =>
    (toString i).toList ++ (". ").toList ++
    dget r ("title").toList ("Sin título").toList ++ ("\n   ").toList ++
    dget r ("snippet").toList [] ++ ("\n   Enlace: ").toList ++
    dget r ("link").toList [] ++ ("\n\n").toList ++
    organicLines (i + 1) rest

/-- The header line of the summary, referencing the original query. -/
def resumenHeader (consulta_inicial : PyStr) : PyStr :=
  ("Resultados de búsqueda para \x27").toList ++ consulta_inicial ++
  ("\x27:\n\n").toList

/-- The `resumen` text built by `buscar_google` (`src/app.py` lines 130-153)
from a successful response body. -/
def resumenOf (consulta_inicial : PyStr) (data : SerperData) : PyStr :=
  let organic_results := data.organic.getD []
  let answer_box := data.answerBox.getD []
  let knowledge_graph := data.knowledgeGraph.getD []
  let r0 := resumenHeader consulta_inicial
  let r1 :=
    if answer_box ≠ [] then
      r0 ++ ("Respuesta destacada: ").toList ++
      dget answer_box ("answer").toList ("N/A").toList ++ ("\n\n").toList
    else r0
  let r2 :=
    if knowledge_graph ≠ [] then
      let t := dget knowledge_graph ("title").toList []
      let dsc := dget knowledge_graph ("description").toList []
      if t ≠ [] ∨ dsc ≠ [] then
        r1 ++ ("Información clave: ").toList ++ t ++ (" - ").toList ++ dsc ++
        ("\n\n").toList
      else r1
    else r1
  if organic_results ≠ [] then
    r2 ++ ("Resultados orgánicos:\n").toList ++
    organicLines 1 (organic_results.take 5)
  else r2

/-- The dictionary returned by `buscar_google`: the error-shaped payload of
the `except` branch, or the success payload (original query and summary). -/
inductive GoogleResp where
  | err (error : PyStr) (resultados_encontrados : List JsonObj)
  | ok (consulta : PyStr) (resumen : PyStr)
deriving DecidableEq, Repr

/-- `buscar_google` from `src/app.py` lines 94-162 as a function of the
outcome of its single outbound call. -/
def buscar_google (outcome : SerperOutcome) (q : PyStr) : GoogleResp :=
  match outcome with
  | .fail msg => .err (("Error en la búsqueda: ").toList ++ msg) []
  | .ok data => .ok q (resumenOf q data)

/-- The empty JSON body `\x7b\x7d`: every field absent. -/
def emptySerperBody : SerperData := ⟨none, none, none⟩

/-! ### Lemmas about the expander -/

lemma self_ne_append_remoto (s : PyStr) : s ≠ s ++ remotoSuffix := by
  intro h
  have := congrArg List.length h
  simp [remotoSuffix] at this

lemma generar_consultas_of_ne_nil (q : PyStr) (h : pyStrip q ≠ []) :
    generar_consultas q = [pyStrip q, pyStrip q ++ remotoSuffix] := by
  simp only [generar_consultas]
  rw [if_neg h, if_neg (self_ne_append_remoto (pyStrip q))]

lemma generar_consultas_of_nil (q : PyStr) (h : pyStrip q = []) :
    generar_consultas q = [] := by
  simp only [generar_consultas]
  rw [if_pos h]

lemma generar_consultas_length_le_two (q : PyStr) :
    (generar_consultas q).length ≤ 2 := by
  by_cases h : pyStrip q = []
  · rw [generar_consultas_of_nil q h]; decide
  · rw [generar_consultas_of_ne_nil q h]; simp

lemma pyStrip_of_all_space (q : PyStr) (h : ∀ c ∈ q, pyIsSpace c = true) :
    pyStrip q = [] := by
  unfold pyStrip
  rw [List.dropWhile_eq_nil_iff.mpr h]
  rfl

/-! ### Lemmas about the merge dictionary -/

lemma upsert_entry_fst (p : Nat × Vacante) (k : Nat) (v : Vacante) :
    (if p.1 = k then (k, v) else p).1 = p.1 := by
  by_cases h : p.1 = k <;> simp [h]

lemma dictKeys_upsert (d : JobDict) (k : Nat) (v : Vacante) :
    dictKeys (dictUpsert d k v) =
      if k ∈ dictKeys d then dictKeys d else dictKeys d ++ [k] := by
  unfold dictUpsert
  by_cases h : k ∈ dictKeys d
  · rw [if_pos h, if_pos h]
    unfold dictKeys
    rw [List.map_map]
    exact List.map_congr_left (fun p _ => upsert_entry_fst p k v)
  · rw [if_neg h, if_neg h]
    unfold dictKeys
    simp

lemma mem_upsert (d : JobDict) (k : Nat) (v : Vacante) (p : Nat × Vacante)
    (hp : p ∈ dictUpsert d k v) : p = (k, v) ∨ p ∈ d := by
  unfold dictUpsert at hp
  by_cases h : k ∈ dictKeys d
  · rw [if_pos h] at hp
    obtain ⟨q, hq, hfq⟩ := List.mem_map.mp hp
    by_cases hqk : q.1 = k
    · left; rw [← hfq, if_pos hqk]
    · right; rw [← hfq, if_neg hqk]; exact hq
  · rw [if_neg h] at hp
    rcases List.mem_append.mp hp with h1 | h2
    · right; exact h1
    · left; simpa using h2

lemma find_map_keep (d : JobDict) (k : Nat) (v : Vacante) (k' : Nat) :
    (d.map (fun p => if p.1 = k then (k, v) else p)).find?
        (fun p => p.1 = k') =
      (d.find? (fun p => p.1 = k')).map
        (fun p => if p.1 = k then (k, v) else p) := by
  induction d with
  | nil => rfl
  | cons p d ih =>
    by_cases h : p.1 = k'
    · rw [List.map_cons,
        List.find?_cons_of_pos _ (by simp only [upsert_entry_fst]; simp [h]),
        List.find?_cons_of_pos _ (by simp [h])]
      rfl
    · rw [List.map_cons,
        List.find?_cons_of_neg _ (by simp only [upsert_entry_fst]; simp [h]),
        List.find?_cons_of_neg _ (by simp [h])]
      exact ih

lemma dictFind_upsert (d : JobDict) (k : Nat) (v : Vacante) (k' : Nat) :
    dictFind (dictUpsert d k v) k' =
      if k' = k then some v else dictFind d k' := by
  unfold dictFind dictUpsert
  by_cases hc : k ∈ dictKeys d
  · rw [if_pos hc, find_map_keep]
    by_cases hk : k' = k
    · subst hk
      obtain ⟨p, hp, hpk⟩ := List.mem_map.mp hc
      have hsome : (d.find? (fun p => p.1 = k')).isSome :=
        List.find?_isSome.mpr ⟨p, hp, by simp [hpk]⟩
      obtain ⟨q, hq⟩ := Option.isSome_iff_exists.mp hsome
      have hqk : q.1 = k' := by simpa using List.find?_some hq
      rw [hq, if_pos rfl]
      simp [hqk]
    · rw [if_neg hk]
      cases hq : d.find? (fun p => p.1 = k') with
      | none => simp
      | some q =>
        have hqk : q.1 = k' := by simpa using List.find?_some hq
        have hne : ¬ q.1 = k := by rw [hqk]; exact hk
        simp [hne]
  · rw [if_neg hc, List.find?_append]
    by_cases hk : k' = k
    · subst hk
      have hnone : d.find? (fun p => p.1 = k') = none := by
        rw [List.find?_eq_none]
        intro p hp
        simp only [decide_eq_true_eq]
        intro he
        exact hc (List.mem_map.mpr ⟨p, hp, he⟩)
      rw [hnone, if_pos rfl]
      simp [List.find?]
    · rw [if_neg hk]
      have hone : List.find? (fun p => p.1 = k') [(k, v)] = none := by
        simp [List.find?, Ne.symm hk]
      rw [hone]
      cases d.find? (fun p => p.1 = k') <;> simp

lemma goodDict_upsert (d : JobDict) (k : Nat) (v : Vacante)
    (hd : goodDict d) (hv : v.idField = some k) :
    goodDict (dictUpsert d k v) := by
  obtain ⟨hnd, hinv⟩ := hd
  constructor
  · rw [dictKeys_upsert]
    by_cases h : k ∈ dictKeys d
    · rw [if_pos h]; exact hnd
    · rw [if_neg h]; simp [List.nodup_append, hnd, h]
  · intro p hp
    rcases mem_upsert d k v p hp with h | h
    · rw [h]; exact hv
    · exact hinv p h

/-! ### Lemmas about the merge loop -/

lemma insertVacantes_append (vs ws : List Vacante) :
    ∀ d, insertVacantes d (vs ++ ws) =
      match insertVacantes d vs with
      | .error e => .error e
      | .ok d' => insertVacantes d' ws := by
  induction vs with
  | nil => intro d; rfl
  | cons v rest ih =>
    intro d
    cases hv : v.idField with
    | none => simp [insertVacantes, hv]
    | some k => simp only [List.cons_append, insertVacantes, hv]; exact ih _

lemma insertVacantes_ok_of_ids (vs : List Vacante)
    (hids : ∀ v ∈ vs, v.idField.isSome = true) :
    ∀ d, ∃ d', insertVacantes d vs = .ok d' := by
  induction vs with
  | nil => intro d; exact ⟨d, rfl⟩
  | cons v rest ih =>
    intro d
    cases hv : v.idField with
    | none =>
      have := hids v (List.mem_cons_self v rest)
      rw [hv] at this
      simp at this
    | some k =>
      obtain ⟨d', hd'⟩ := ih (fun w hw => hids w (List.mem_cons_of_mem v hw))
        (dictUpsert d k v)
      exact ⟨d', by simp [insertVacantes, hv, hd']⟩

lemma goodDict_insertVacantes (vs : List Vacante) :
    ∀ d d', goodDict d → insertVacantes d vs = .ok d' → goodDict d' := by
  induction vs with
  | nil => intro d d' hd h; cases h; exact hd
  | cons v rest ih =>
    intro d d' hd h
    cases hv : v.idField with
    | none => rw [insertVacantes, hv] at h; cases h
    | some k =>
      rw [insertVacantes, hv] at h
      exact ih _ _ (goodDict_upsert d k v hd hv) h

lemma lastWithId_cons (v : Vacante) (rest : List Vacante) (k : Nat) :
    lastWithId (v :: rest) k =
      (lastWithId rest k).or
        (if v.idField = some k then some v else none) := by
  unfold lastWithId
  rw [List.reverse_cons, List.find?_append]
  congr 1
  by_cases h : v.idField = some k <;> simp [List.find?, h]

lemma dictFind_insertVacantes (vs : List Vacante) :
    ∀ d d', insertVacantes d vs = .ok d' →
      ∀ k, dictFind d' k = (lastWithId vs k).or (dictFind d k) := by
  induction vs with
  | nil =>
    intro d d' h k
    cases h
    simp [lastWithId]
  | cons v rest ih =>
    intro d d' h k
    cases hv : v.idField with
    | none => rw [insertVacantes, hv] at h; cases h
    | some k₀ =>
      rw [insertVacantes, hv] at h
      rw [lastWithId_cons, Option.or_assoc, ih _ _ h k]
      congr 1
      rw [dictFind_upsert]
      by_cases hk : k = k₀
      · subst hk; rw [if_pos rfl, hv]; simp
      · rw [if_neg hk, hv]
        have : ¬ (k₀ = k) := fun he => hk he.symm
        simp [this]

lemma insertVacantes_fresh (vs : List Vacante) :
    ∀ d, (∀ v ∈ vs, v.idField.isSome = true) →
      (vs.map (fun v => v.idField)).Nodup →
      (∀ v ∈ vs, ∀ p ∈ d, v.idField ≠ some p.1) →
      insertVacantes d vs = .ok (d ++ vs.map (fun v => (v.idField.getD 0, v))) := by
  induction vs with
  | nil => intro d _ _ _; simp [insertVacantes]
  | cons v rest ih =>
    intro d hids hnd hfresh
    cases hv : v.idField with
    | none =>
      have := hids v (List.mem_cons_self v rest)
      rw [hv] at this
      simp at this
    | some k =>
      simp only [insertVacantes, hv]
      have hnd' := hnd
      rw [List.map_cons] at hnd'
      have hvnotin := (List.nodup_cons.mp hnd').1
      have hndrest := (List.nodup_cons.mp hnd').2
      have hknotin : k ∉ dictKeys d := by
        intro hk
        obtain ⟨p, hp, hpk⟩ := List.mem_map.mp hk
        exact hfresh v (List.mem_cons_self v rest) p hp (by rw [hv, hpk])
      have hup : dictUpsert d k v = d ++ [(k, v)] := by
        unfold dictUpsert
        rw [if_neg hknotin]
      rw [hup]
      have hrest : insertVacantes (d ++ [(k, v)]) rest =
          .ok ((d ++ [(k, v)]) ++ rest.map (fun v => (v.idField.getD 0, v))) := by
        apply ih
        · exact fun w hw => hids w (List.mem_cons_of_mem v hw)
        · exact hndrest
        · intro w hw p hp
          rcases List.mem_append.mp hp with h1 | h2
          · exact hfresh w (List.mem_cons_of_mem v hw) p h1
          · have hp2 : p = (k, v) := by simpa using h2
            rw [hp2]
            intro hwk
            exact hvnotin (List.mem_map.mpr ⟨w, hw, by rw [hwk, hv]⟩)
      rw [hrest]
      congr 1
      simp [hv, List.append_assoc]

lemma filter_values (d : JobDict) (hd : goodDict d) (k : Nat) :
    (d.map Prod.snd).filter (fun w => w.idField = some k) =
      (dictFind d k).toList := by
  induction d with
  | nil => rfl
  | cons p rest ih =>
    obtain ⟨hnd, hinv⟩ := hd
    have hpid : p.2.idField = some p.1 := hinv p (List.mem_cons_self p rest)
    have hnd' : (p.1 :: dictKeys rest).Nodup := hnd
    have hndk : p.1 ∉ dictKeys rest := (List.nodup_cons.mp hnd').1
    have hgrest : goodDict rest :=
      ⟨(List.nodup_cons.mp hnd').2,
       fun q hq => hinv q (List.mem_cons_of_mem p hq)⟩
    by_cases hpk : p.1 = k
    · rw [List.map_cons,
        List.filter_cons_of_pos (by simp [hpid, hpk])]
      have hrest_nil :
          (rest.map Prod.snd).filter (fun w => w.idField = some k) = [] := by
        rw [List.filter_eq_nil_iff]
        intro w hw
        obtain ⟨q, hq, hqw⟩ := List.mem_map.mp hw
        rw [← hqw]
        simp only [decide_eq_true_eq]
        intro he
        have : q.1 = k := by
          have := hgrest.2 q hq
          rw [this] at he
          exact Option.some_injective _ he
        rw [← hpk] at this
        exact hndk (by rw [← this] at hndk ⊢; exact List.mem_map.mpr ⟨q, hq, rfl⟩)
      rw [hrest_nil]
      unfold dictFind
      rw [List.find?_cons_of_pos _ (by simp [hpk])]
      rfl
    · rw [List.map_cons,
        List.filter_cons_of_neg (by simp [hpid, hpk]), ih hgrest]
      unfold dictFind
      rw [List.find?_cons_of_neg _ (by simp [hpk])]

lemma procesar_eq_insert_stream (net : PyStr → ApiResult) :
    ∀ cs d, procesarConsultas net d cs = insertVacantes d (streamOf net cs) := by
  intro cs
  induction cs with
  | nil => intro d; rfl
  | cons c cs ih =>
    intro d
    rw [streamOf, insertVacantes_append]
    cases hc : net c with
    | fail => rw [procesarConsultas, hc]; simp [itemsOf, insertVacantes, ih]
    | ok data =>
      rw [procesarConsultas, hc]
      simp only [itemsOf]
      cases h : insertVacantes d (data.vacancies.getD []) with
      | error e => rfl
      | ok d' => exact ih d'

lemma buscar_empleos_eq (net : PyStr → ApiResult) (q : PyStr) :
    buscar_empleos net q =
      match insertVacantes [] (streamOf net (generar_consultas q)) with
      | .error e => .error e
      | .ok d => .ok ⟨generar_consultas q, d.map Prod.snd⟩ := by
  simp only [buscar_empleos]
  rw [procesar_eq_insert_stream]

lemma streamOf_all_fail (net : PyStr → ApiResult) :
    ∀ cs, (∀ c ∈ cs, net c = ApiResult.fail) → streamOf net cs = [] := by
  intro cs
  induction cs with
  | nil => intro _; rfl
  | cons c cs ih =>
    intro h
    rw [streamOf, h c (List.mem_cons_self c cs),
      ih (fun x hx => h x (List.mem_cons_of_mem c hx))]
    rfl

instance {ε α : Type} [DecidableEq ε] [DecidableEq α] :
    DecidableEq (Except ε α) := fun a b =>
  match a, b with
  | .error x, .error y =>
    if h : x = y then .isTrue (h ▸ rfl)
    else .isFalse (fun he => h (by injection he))
  | .ok x, .ok y =>
    if h : x = y then .isTrue (h ▸ rfl)
    else .isFalse (fun he => h (by injection he))
  | .error _, .ok _ => .isFalse (fun he => Except.noConfusion he)
  | .ok _, .error _ => .isFalse (fun he => Except.noConfusion he)

/-! ### The claims -/

/-- C1: for every input whose trimmed form is non-empty, `generar_consultas`
returns a sequence whose underlying set is exactly the trimmed string and
its " remoto"-suffixed variant, with 1 element when those two strings are
equal and 2 otherwise. -/
theorem expander_set_spec (q : PyStr) (h : pyStrip q ≠ []) :
    (generar_consultas q).toFinset =
      {pyStrip q, pyStrip q ++ remotoSuffix} ∧
    (generar_consultas q).length =
      if pyStrip q = pyStrip q ++ remotoSuffix then 1 else 2 := by
  rw [generar_consultas_of_ne_nil q h]
  constructor
  · simp
  · rw [if_neg (self_ne_append_remoto (pyStrip q))]
    rfl

/-- Witness for C1 at the concrete input "dev". -/
theorem expander_set_spec_witness :
    pyStrip (("dev").toList) ≠ [] ∧
    ((generar_consultas (("dev").toList)).toFinset =
        {pyStrip (("dev").toList), pyStrip (("dev").toList) ++ remotoSuffix} ∧
      (generar_consultas (("dev").toList)).length =
        if pyStrip (("dev").toList) =
            pyStrip (("dev").toList) ++ remotoSuffix then 1 else 2) :=
  ⟨by decide, expander_set_spec (("dev").toList) (by decide)⟩

/-- An input whose trimmed form already ends with the token "remoto". -/
def qRemoto : PyStr := ("dev remoto").toList

/-- C5 counterexample: for the input "dev remoto", whose trimmed form ends
with "remoto", the two constructed variants do NOT coincide and the
expander returns 2 variants, not 1. -/
theorem remoto_variants_cx :
    (("remoto").toList).isSuffixOf (pyStrip qRemoto) = true ∧
    pyStrip qRemoto ≠ pyStrip qRemoto ++ remotoSuffix ∧
    generar_consultas qRemoto =
      [("dev remoto").toList, ("dev remoto remoto").toList] ∧
    (generar_consultas qRemoto).length = 2 := by decide

/-- C5 amended: for every input whose trimmed form is non-empty (in
particular one ending with the token "remoto"), the two constructed
variants are distinct — a string never equals itself with " remoto"
appended — so `generar_consultas` returns exactly 2 pairwise-distinct
variants; the set-based construction never needs to collapse them. -/
theorem remoto_variants_amended (q : PyStr)
    (h1 : pyStrip q ≠ [])
    (h2 : (("remoto").toList).isSuffixOf (pyStrip q) = true) :
    (generar_consultas q).length = 2 ∧ (generar_consultas q).Nodup := by
  rw [generar_consultas_of_ne_nil q h1]
  refine ⟨rfl, ?_⟩
  exact List.nodup_cons.mpr
    ⟨by simp [self_ne_append_remoto (pyStrip q)], List.nodup_singleton _⟩

/-- Witness for the amended C5 at the concrete input "dev remoto". -/
theorem remoto_variants_witness :
    (generar_consultas qRemoto).length = 2 ∧ (generar_consultas qRemoto).Nodup :=
  remoto_variants_amended qRemoto (by decide) (by decide)

/-- A network in which every outbound call fails. -/
def netNada : PyStr → ApiResult := fun _ => ApiResult.fail

/-- C9: on an input that is empty or all-whitespace, the expander returns
the empty sequence and `buscar_empleos` — whatever the network would
answer, since no call is issued — returns the well-formed empty response. -/
theorem blank_input_empty_response (q : PyStr) (net : PyStr → ApiResult)
    (h : ∀ c ∈ q, pyIsSpace c = true) :
    generar_consultas q = [] ∧
    buscar_empleos net q = Except.ok ⟨[], []⟩ := by
  have hq := pyStrip_of_all_space q h
  have hg := generar_consultas_of_nil q hq
  refine ⟨hg, ?_⟩
  simp only [buscar_empleos, hg]
  rfl

/-- Witness for C9 at the concrete all-whitespace input "  ". -/
theorem blank_input_empty_response_witness :
    generar_consultas (("  ").toList) = [] ∧
    buscar_empleos netNada (("  ").toList) = Except.ok ⟨[], []⟩ :=
  blank_input_empty_response (("  ").toList) netNada (by decide)

/-- C4: on a non-blank input, if every variant call fails, `buscar_empleos`
does not raise: it returns the well-formed response with the non-empty
variant list and an empty `vacantes_encontradas`. -/
theorem total_failure_well_formed (net : PyStr → ApiResult) (q : PyStr)
    (hq : pyStrip q ≠ [])
    (hf : ∀ c ∈ generar_consultas q, net c = ApiResult.fail) :
    buscar_empleos net q = Except.ok ⟨generar_consultas q, []⟩ ∧
    generar_consultas q ≠ [] := by
  rw [buscar_empleos_eq, streamOf_all_fail net (generar_consultas q) hf]
  constructor
  · rfl
  · rw [generar_consultas_of_ne_nil q hq]
    simp

/-- Witness for C4 at the concrete input "b" with every call failing. -/
theorem total_failure_well_formed_witness :
    buscar_empleos netNada (("b").toList) =
      Except.ok ⟨generar_consultas (("b").toList), []⟩ ∧
    generar_consultas (("b").toList) ≠ [] :=
  total_failure_well_formed netNada (("b").toList) (by decide) (by decide)

/-- The query used to exhibit the missing-id fault. -/
def qFalta : PyStr := ("qa").toList

/-- A network whose first variant call succeeds with an item lacking the
`id` field. -/
def netFalta : PyStr → ApiResult := fun c =>
  if c = qFalta then ApiResult.ok ⟨some [⟨none, 7⟩]⟩ else ApiResult.fail

/-- C6: there is a successful jobs-API response containing an item without
the `id` field for which `buscar_empleos` propagates the lookup fault
(`KeyError`) instead of returning a well-formed response. -/
theorem missing_id_propagates_fault :
    netFalta qFalta = ApiResult.ok (JobsData.mk (some [Vacante.mk none 7])) ∧
    (Vacante.mk none 7).idField = none ∧
    buscar_empleos netFalta qFalta = Except.error () := by decide

/-- The query of the C2 counterexample run. -/
def qDup : PyStr := ("a").toList

/-- A network where the first variant fails and the second succeeds with
two items sharing the id 1. -/
def netDup : PyStr → ApiResult := fun c =>
  if c = qDup then ApiResult.fail
  else ApiResult.ok ⟨some [⟨some 1, 0⟩, ⟨some 1, 1⟩]⟩

/-- C2 counterexample: a run in which one variant fails and the other
succeeds, yet the final collection is NOT exactly the items of the
successful response — the id-1 duplicate was merged away, dropping the
first item. -/
theorem fanout_failure_tolerance_cx :
    netDup qDup = ApiResult.fail ∧
    netDup (qDup ++ remotoSuffix) =
      ApiResult.ok
        (JobsData.mk (some [Vacante.mk (some 1) 0, Vacante.mk (some 1) 1])) ∧
    generar_consultas qDup = [qDup, qDup ++ remotoSuffix] ∧
    buscar_empleos netDup qDup =
      Except.ok
        (RespEmpleos.mk [qDup, qDup ++ remotoSuffix] [Vacante.mk (some 1) 1]) ∧
    [Vacante.mk (some 1) 1] ≠ [Vacante.mk (some 1) 0, Vacante.mk (some 1) 1] ∧
    Vacante.mk (some 1) 0 ∉ [Vacante.mk (some 1) 1] := by decide

/-- C2 amended: if of the two variant calls one fails and the other
succeeds, and the successful response's items all carry pairwise-distinct
id fields, then the run does not abort, the failing variant contributes
zero items and the final collection is exactly the successful response's
items (in general it is their last-write-wins merge by id). -/
theorem fanout_failure_tolerance_amended (net : PyStr → ApiResult)
    (q : PyStr) (data : JobsData)
    (hq : pyStrip q ≠ [])
    (hfs : (net (pyStrip q) = ApiResult.fail ∧
            net (pyStrip q ++ remotoSuffix) = ApiResult.ok data) ∨
           (net (pyStrip q) = ApiResult.ok data ∧
            net (pyStrip q ++ remotoSuffix) = ApiResult.fail))
    (hids : ∀ v ∈ data.vacancies.getD [], v.idField.isSome = true)
    (hnd : ((data.vacancies.getD []).map (fun v => v.idField)).Nodup) :
    buscar_empleos net q =
      Except.ok ⟨generar_consultas q, data.vacancies.getD []⟩ := by
  have hg := generar_consultas_of_ne_nil q hq
  have hins : insertVacantes [] (data.vacancies.getD []) =
      .ok ((data.vacancies.getD []).map (fun v => (v.idField.getD 0, v))) := by
    have h := insertVacantes_fresh (data.vacancies.getD []) [] hids hnd
      (by intro v hv p hp; simp at hp)
    simpa using h
  have hmap :
      (((data.vacancies.getD []).map
        (fun v => (v.idField.getD 0, v))).map Prod.snd) =
      data.vacancies.getD [] := by
    rw [List.map_map]
    show (data.vacancies.getD []).map id = data.vacancies.getD []
    exact List.map_id _
  rw [buscar_empleos_eq, hg]
  rcases hfs with ⟨h1, h2⟩ | ⟨h1, h2⟩
  · rw [streamOf, streamOf, streamOf, h1, h2]
    simp only [itemsOf, List.append_nil, List.nil_append]
    rw [hins]
    simp only [hmap]
  · rw [streamOf, streamOf, streamOf, h1, h2]
    simp only [itemsOf, List.append_nil, List.nil_append]
    rw [hins]
    simp only [hmap]

/-- The query of the C2 witness run. -/
def qUno : PyStr := ("c").toList

/-- A network where the first variant fails and the second succeeds with a
single well-formed item. -/
def netUno : PyStr → ApiResult := fun c =>
  if c = qUno then ApiResult.fail
  else ApiResult.ok ⟨some [⟨some 5, 9⟩]⟩

/-- Witness for the amended C2 at a concrete run. -/
theorem fanout_failure_tolerance_witness :
    buscar_empleos netUno qUno =
      Except.ok ⟨generar_consultas qUno,
        (JobsData.mk (some [Vacante.mk (some 5) 9])).vacancies.getD []⟩ :=
  fanout_failure_tolerance_amended netUno qUno
    (JobsData.mk (some [Vacante.mk (some 5) 9]))
    (by decide) (Or.inl ⟨by decide, by decide⟩) (by decide) (by decide)

/-- C3: if every processed item carries an id, `buscar_empleos` succeeds
and, for an id `k` whose last processed occurrence is the item `v`, the
final collection contains exactly one entry with that id, namely `v`
(last-write-wins dedup by id). -/
theorem merge_last_write_wins (net : PyStr → ApiResult) (q : PyStr)
    (k : Nat) (v : Vacante)
    (hids : ∀ w ∈ streamOf net (generar_consultas q), w.idField.isSome = true)
    (hlast : lastWithId (streamOf net (generar_consultas q)) k = some v) :
    ∃ r, buscar_empleos net q = Except.ok r ∧
      r.vacantes_encontradas.filter (fun w => w.idField = some k) = [v] := by
  obtain ⟨d, hd⟩ :=
    insertVacantes_ok_of_ids (streamOf net (generar_consultas q)) hids []
  have hgood : goodDict d :=
    goodDict_insertVacantes _ [] d ⟨List.nodup_nil, by simp⟩ hd
  have hfind : dictFind d k = some v := by
    rw [dictFind_insertVacantes _ [] d hd k, hlast]
    rfl
  refine ⟨⟨generar_consultas q, d.map Prod.snd⟩, ?_, ?_⟩
  · rw [buscar_empleos_eq, hd]
  · show (d.map Prod.snd).filter (fun w => w.idField = some k) = [v]
    rw [filter_values d hgood k, hfind]
    rfl

/-- The query of the C3 witness run. -/
def qBis : PyStr := ("w").toList

/-- A network where both variants succeed and return an item with id 1,
with different payloads. -/
def netBis : PyStr → ApiResult := fun c =>
  if c = qBis then ApiResult.ok ⟨some [⟨some 1, 0⟩]⟩
  else ApiResult.ok ⟨some [⟨some 1, 2⟩]⟩

/-- Witness for C3 at a concrete run: the entry kept for id 1 is the item
processed last. -/
theorem merge_last_write_wins_witness :
    ∃ r, buscar_empleos netBis qBis = Except.ok r ∧
      r.vacantes_encontradas.filter (fun w => w.idField = some 1) =
        [Vacante.mk (some 1) 2] :=
  merge_last_write_wins netBis qBis 1 (Vacante.mk (some 1) 2)
    (by decide) (by decide)

/-- C10: every successful `buscar_empleos` run returns pairwise-distinct id
values in `vacantes_encontradas`, and `consultas_realizadas` is exactly the
expansion of the input query, hence of length at most 2. -/
theorem result_invariants (net : PyStr → ApiResult) (q : PyStr)
    (r : RespEmpleos) (h : buscar_empleos net q = Except.ok r) :
    r.consultas_realizadas = generar_consultas q ∧
    r.consultas_realizadas.length ≤ 2 ∧
    (r.vacantes_encontradas.map (fun w => w.idField)).Nodup := by
  rw [buscar_empleos_eq] at h
  cases hm : insertVacantes [] (streamOf net (generar_consultas q)) with
  | error e => rw [hm] at h; cases h
  | ok d =>
    rw [hm] at h
    have hr : r = ⟨generar_consultas q, d.map Prod.snd⟩ := by
      have h' := h
      simp only [Except.ok.injEq] at h'
      exact h'.symm
    subst hr
    have hgood : goodDict d :=
      goodDict_insertVacantes _ [] d ⟨List.nodup_nil, by simp⟩ hm
    refine ⟨rfl, generar_consultas_length_le_two q, ?_⟩
    show ((d.map Prod.snd).map (fun w => w.idField)).Nodup
    rw [List.map_map]
    have heq : d.map (fun p => p.2.idField) = (dictKeys d).map some := by
      unfold dictKeys
      rw [List.map_map]
      exact List.map_congr_left (fun p hp => hgood.2 p hp)
    show (d.map (fun p => p.2.idField)).Nodup
    rw [heq]
    exact hgood.1.map (Option.some_injective _)

/-- The query of the C10 witness run. -/
def qInv : PyStr := ("x").toList

/-- A network where the first variant succeeds with one item and the second
fails. -/
def netInv : PyStr → ApiResult := fun c =>
  if c = qInv then ApiResult.ok ⟨some [⟨some 3, 1⟩]⟩ else ApiResult.fail

/-- Witness for C10 at a concrete successful run. -/
theorem result_invariants_witness :
    (RespEmpleos.mk [qInv, qInv ++ remotoSuffix]
        [Vacante.mk (some 3) 1]).consultas_realizadas =
      generar_consultas qInv ∧
    (RespEmpleos.mk [qInv, qInv ++ remotoSuffix]
        [Vacante.mk (some 3) 1]).consultas_realizadas.length ≤ 2 ∧
    ((RespEmpleos.mk [qInv, qInv ++ remotoSuffix]
        [Vacante.mk (some 3) 1]).vacantes_encontradas.map
      (fun w => w.idField)).Nodup :=
  result_invariants netInv qInv
    (RespEmpleos.mk [qInv, qInv ++ remotoSuffix] [Vacante.mk (some 3) 1])
    (by decide)

/-- C7: when the provider returns the empty JSON body, the summary produced
by `buscar_google` is exactly the header line referencing the original
query — no "Respuesta destacada", "Información clave" or
"Resultados orgánicos" section is appended. -/
theorem empty_body_header_only (q : PyStr) :
    buscar_google (SerperOutcome.ok emptySerperBody) q =
      GoogleResp.ok q (resumenHeader q) := rfl

/-- C8: when the outbound POST fails, `buscar_google` does not raise: it
returns the error-shaped payload with the error message and an empty
`resultados_encontrados`, and no summary field is produced. -/
theorem google_failure_error_payload (msg q : PyStr) :
    buscar_google (SerperOutcome.fail msg) q =
      GoogleResp.err ((("Error en la búsqueda: ").toList) ++ msg) [] := rfl
